import Mathlib

/-!
Shallow embedding of the Postgres warehouse-connector adapter
(`PostgresClient` / `PostgresWarehouseClient`) and proofs of its
specified properties.

JavaScript objects used as string-keyed dictionaries are embedded as
association lists (`List (String × α)`) with insert-or-update assignment
that preserves key insertion order, matching JS object semantics.
Effectful calls into the underlying libraries (ssh2-promise, pg) are
embedded as explicit outcome oracles passed to each operation, and
thrown exceptions as `Except` errors.
-/

set_option autoImplicit false

/-- Modelled from the spec: the common type taxonomy
(NUMBER, DATE, TIMESTAMP, BOOLEAN, STRING) that warehouse column types
are mapped into; the `DimensionType` enum itself lives in the
`@lightdash/common` package, outside this excerpt. -/
inductive DimensionType where
  | NUMBER
  | DATE
  | TIMESTAMP
  | BOOLEAN
  | STRING
  deriving DecidableEq, Repr

/-- Embedding of `mapFieldType`: the switch over Postgres type-name
strings, with fall-through case groups rendered as grouped boolean
disjunctions and the default case returning STRING. -/
def mapFieldType (type : String) : DimensionType :=
  if type = "decimal" ∨ type = "numeric" ∨ type = "integer" ∨
      type = "money" ∨ type = "smallserial" ∨ type = "serial" ∨
      type = "serial2" ∨ type = "serial4" ∨ type = "serial8" ∨
      type = "bigserial" ∨ type = "int2" ∨ type = "int4" ∨
      type = "int8" ∨ type = "bigint" ∨ type = "smallint" ∨
      type = "float" ∨ type = "float4" ∨ type = "float8" ∨
      type = "double precision" ∨ type = "real" then
    DimensionType.NUMBER
  else if type = "date" then
    DimensionType.DATE
  else if type = "time" ∨ type = "timetz" ∨ type = "timestamp" ∨
      type = "timestamptz" ∨ type = "time without time zone" ∨
      type = "timestamp without time zone" then
    DimensionType.TIMESTAMP
  else if type = "boolean" ∨ type = "bool" then
    DimensionType.BOOLEAN
  else
    DimensionType.STRING

/-- Case table of `mapFieldType`: the type-name strings appearing as
(non-default) switch cases. -/
def mapFieldTypeCases : List String :=
  ["decimal", "numeric", "integer", "money", "smallserial", "serial",
   "serial2", "serial4", "serial8", "bigserial", "int2", "int4", "int8",
   "bigint", "smallint", "float", "float4", "float8", "double precision",
   "real", "date", "time", "timetz", "timestamp", "timestamptz",
   "time without time zone", "timestamp without time zone", "boolean",
   "bool"]

namespace builtins

/-- Standard PostgreSQL type OIDs exposed as `pg.types.builtins` by the
`pg` library; used by `convertDataTypeIdToDimensionType`. -/
def BOOL : Nat := 16

def INT8 : Nat := 20

def INT2 : Nat := 21

def INT4 : Nat := 23

def FLOAT4 : Nat := 700

def FLOAT8 : Nat := 701

def MONEY : Nat := 790

def DATE : Nat := 1082

def TIME : Nat := 1083

def TIMESTAMP : Nat := 1114

def TIMESTAMPTZ : Nat := 1184

def TIMETZ : Nat := 1266

def NUMERIC : Nat := 1700

end builtins

/-- Embedding of `convertDataTypeIdToDimensionType`: the switch over
`pg.types.builtins` data type OIDs, default STRING. -/
def convertDataTypeIdToDimensionType (dataTypeId : Nat) : DimensionType :=
  if dataTypeId = builtins.NUMERIC ∨ dataTypeId = builtins.MONEY ∨
      dataTypeId = builtins.INT2 ∨ dataTypeId = builtins.INT4 ∨
      dataTypeId = builtins.INT8 ∨ dataTypeId = builtins.FLOAT4 ∨
      dataTypeId = builtins.FLOAT8 then
    DimensionType.NUMBER
  else if dataTypeId = builtins.DATE then
    DimensionType.DATE
  else if dataTypeId = builtins.TIME ∨ dataTypeId = builtins.TIMETZ ∨
      dataTypeId = builtins.TIMESTAMP ∨ dataTypeId = builtins.TIMESTAMPTZ then
    DimensionType.TIMESTAMP
  else if dataTypeId = builtins.BOOL then
    DimensionType.BOOLEAN
  else
    DimensionType.STRING

/-- Case table of `convertDataTypeIdToDimensionType`: the OIDs appearing
as (non-default) switch cases. -/
def convertDataTypeIdCases : List Nat :=
  [builtins.NUMERIC, builtins.MONEY, builtins.INT2, builtins.INT4,
   builtins.INT8, builtins.FLOAT4, builtins.FLOAT8, builtins.DATE,
   builtins.TIME, builtins.TIMETZ, builtins.TIMESTAMP,
   builtins.TIMESTAMPTZ, builtins.BOOL]

/-- C1: `mapFieldType` and `convertDataTypeIdToDimensionType` are total
deterministic functions into the five dimension types, and every input
outside their case tables is mapped to STRING. (Totality and determinism
hold by construction: both are Lean functions.) -/
theorem mapFieldType_and_convert_total_default_string :
    (∀ s : String,
      mapFieldType s = DimensionType.NUMBER ∨
      mapFieldType s = DimensionType.DATE ∨
      mapFieldType s = DimensionType.TIMESTAMP ∨
      mapFieldType s = DimensionType.BOOLEAN ∨
      mapFieldType s = DimensionType.STRING) ∧
    (∀ n : Nat,
      convertDataTypeIdToDimensionType n = DimensionType.NUMBER ∨
      convertDataTypeIdToDimensionType n = DimensionType.DATE ∨
      convertDataTypeIdToDimensionType n = DimensionType.TIMESTAMP ∨
      convertDataTypeIdToDimensionType n = DimensionType.BOOLEAN ∨
      convertDataTypeIdToDimensionType n = DimensionType.STRING) ∧
    (∀ s : String, s ∉ mapFieldTypeCases →
      mapFieldType s = DimensionType.STRING) ∧
    (∀ n : Nat, n ∉ convertDataTypeIdCases →
      convertDataTypeIdToDimensionType n = DimensionType.STRING) := by
  refine ⟨?_, ?_, ?_, ?_⟩
  · intro s
    unfold mapFieldType
    split
    · exact Or.inl rfl
    split
    · exact Or.inr (Or.inl rfl)
    split
    · exact Or.inr (Or.inr (Or.inl rfl))
    split
    · exact Or.inr (Or.inr (Or.inr (Or.inl rfl)))
    · exact Or.inr (Or.inr (Or.inr (Or.inr rfl)))
  · intro n
    unfold convertDataTypeIdToDimensionType
    split
    · exact Or.inl rfl
    split
    · exact Or.inr (Or.inl rfl)
    split
    · exact Or.inr (Or.inr (Or.inl rfl))
    split
    · exact Or.inr (Or.inr (Or.inr (Or.inl rfl)))
    · exact Or.inr (Or.inr (Or.inr (Or.inr rfl)))
  · intro s hs
    simp only [mapFieldTypeCases, List.mem_cons, List.not_mem_nil] at hs
    push_neg at hs
    unfold mapFieldType
    obtain ⟨h1, h2, h3, h4, h5, h6, h7, h8, h9, h10, h11, h12, h13, h14,
      h15, h16, h17, h18, h19, h20, h21, h22, h23, h24, h25, h26, h27,
      h28, h29, -⟩ := hs
    rw [if_neg, if_neg, if_neg, if_neg] <;> simp_all
  · intro n hn
    simp only [convertDataTypeIdCases, List.mem_cons, List.not_mem_nil] at hn
    push_neg at hn
    unfold convertDataTypeIdToDimensionType
    obtain ⟨h1, h2, h3, h4, h5, h6, h7, h8, h9, h10, h11, h12, h13, -⟩ := hn
    rw [if_neg, if_neg, if_neg, if_neg] <;> simp_all

/-- Witness for C1 at concrete inputs outside the case tables. -/
theorem mapFieldType_and_convert_total_default_string_witness :
    mapFieldType "uuid" = DimensionType.STRING ∧
    convertDataTypeIdToDimensionType 25 = DimensionType.STRING :=
  ⟨mapFieldType_and_convert_total_default_string.2.2.1 "uuid" (by decide),
   mapFieldType_and_convert_total_default_string.2.2.2 25 (by decide)⟩

/-! ### JavaScript objects as ordered association lists -/

/-- Association-list embedding of a JavaScript object used as a
string-keyed dictionary. -/
abbrev JsObj (α : Type) : Type := List (String × α)

/-- Property read `o[k]` on a JS object: the value at the first (unique)
entry with key `k`, if any. -/
def jsGet {α : Type} (o : JsObj α) (k : String) : Option α :=
  (o.find? (fun p => p.1 = k)).map (fun p => p.2)

/-- Property assignment `o[k] = v` on a JS object (value semantics):
updates the existing entry in place, preserving key insertion order, or
appends a new entry. This is also the semantics of the spread-update
expression used in `runQuery`. -/
def jsSet {α : Type} : JsObj α → String → α → JsObj α
  | [], k, v => [(k, v)]
  | (k', v') :: rest, k, v =>
      if k' = k then (k, v) :: rest else (k', v') :: jsSet rest k v

theorem jsGet_jsSet_same {α : Type} (o : JsObj α) (k : String) (v : α) :
    jsGet (jsSet o k v) k = some v := by
  induction o with
  | nil => simp [jsGet, jsSet, List.find?]
  | cons p rest ih =>
    by_cases h : p.1 = k
    · simp [jsSet, jsGet, List.find?, h]
    · simpa [jsSet, jsGet, List.find?, h] using ih

theorem jsGet_jsSet_other {α : Type} (o : JsObj α) (k k' : String) (v : α)
    (hne : k' ≠ k) : jsGet (jsSet o k v) k' = jsGet o k' := by
  induction o with
  | nil => simp [jsGet, jsSet, List.find?, Ne.symm hne]
  | cons p rest ih =>
    obtain ⟨a, b⟩ := p
    by_cases h : a = k
    · subst h
      simp [jsSet, jsGet, List.find?, Ne.symm hne]
    · by_cases h' : a = k'
      · subst h'
        simp [jsSet, jsGet, List.find?, h]
      · simp only [jsGet] at ih ⊢
        simp only [jsSet, if_neg h]
        rw [List.find?_cons_of_neg _ (by simp [h']),
          List.find?_cons_of_neg _ (by simp [h'])]
        exact ih

theorem jsSet_map_fst {α : Type} (o : JsObj α) (k : String) (v : α) :
    (jsSet o k v).map Prod.fst =
      if k ∈ o.map Prod.fst then o.map Prod.fst
      else o.map Prod.fst ++ [k] := by
  induction o with
  | nil => simp [jsSet]
  | cons p rest ih =>
    obtain ⟨a, b⟩ := p
    by_cases h : a = k
    · subst h
      simp [jsSet]
    · simp only [jsSet, if_neg h, List.map_cons, ih]
      by_cases hk : k ∈ rest.map Prod.fst
      · simp [hk, Ne.symm h, List.mem_cons]
      · simp [hk, Ne.symm h, List.mem_cons]

theorem jsSet_keys_nodup {α : Type} (o : JsObj α) (k : String) (v : α)
    (h : (o.map Prod.fst).Nodup) :
    ((jsSet o k v).map Prod.fst).Nodup := by
  rw [jsSet_map_fst]
  by_cases hk : k ∈ o.map Prod.fst
  · simpa [hk] using h
  · rw [if_neg hk, List.nodup_append]
    refine ⟨h, List.nodup_singleton k, ?_⟩
    intro a ha hb
    simp only [List.mem_singleton] at hb
    exact hk (hb ▸ ha)

/-! ### SSL mode configuration -/

/-- Possible values of the pg `PoolConfig` ssl option produced by
`getSSLConfigFromMode`: a plain boolean, or an options object with a
`rejectUnauthorized` flag. -/
inductive SSLConfig where
  | boolean (b : Bool)
  | rejectUnauthorized (b : Bool)
  deriving DecidableEq, Repr

/-- Embedding of `getSSLConfigFromMode`: maps the seven recognized SSL
mode strings to pool SSL options and throws (returns `.error`) on any
other mode. -/
def getSSLConfigFromMode (mode : String) : Except String SSLConfig :=
  if mode = "disable" then
    Except.ok (SSLConfig.boolean false)
  else if mode = "no-verify" then
    Except.ok (SSLConfig.rejectUnauthorized false)
  else if mode = "allow" ∨ mode = "prefer" ∨ mode = "require" ∨
      mode = "verify-ca" ∨ mode = "verify-full" then
    Except.ok (SSLConfig.boolean true)
  else
    Except.error ("SSL mode \"" ++ mode ++ "\" not understood.")

/-- The seven mode strings recognized by `getSSLConfigFromMode`. -/
def sslModes : List String :=
  ["disable", "no-verify", "allow", "prefer", "require", "verify-ca",
   "verify-full"]

/-- C5: `getSSLConfigFromMode` succeeds exactly on the seven recognized
modes, returning false for disable, a rejectUnauthorized-false object
for no-verify, true for the other five, and an error for every other
input string. -/
theorem getSSLConfigFromMode_cases :
    getSSLConfigFromMode "disable" = Except.ok (SSLConfig.boolean false) ∧
    getSSLConfigFromMode "no-verify" =
      Except.ok (SSLConfig.rejectUnauthorized false) ∧
    getSSLConfigFromMode "allow" = Except.ok (SSLConfig.boolean true) ∧
    getSSLConfigFromMode "prefer" = Except.ok (SSLConfig.boolean true) ∧
    getSSLConfigFromMode "require" = Except.ok (SSLConfig.boolean true) ∧
    getSSLConfigFromMode "verify-ca" = Except.ok (SSLConfig.boolean true) ∧
    getSSLConfigFromMode "verify-full" = Except.ok (SSLConfig.boolean true) ∧
    (∀ mode : String, mode ∉ sslModes →
      getSSLConfigFromMode mode =
        Except.error ("SSL mode \"" ++ mode ++ "\" not understood.")) := by
  refine ⟨rfl, rfl, rfl, rfl, rfl, rfl, rfl, ?_⟩
  intro mode hm
  simp only [sslModes, List.mem_cons, List.not_mem_nil] at hm
  push_neg at hm
  obtain ⟨h1, h2, h3, h4, h5, h6, h7, -⟩ := hm
  unfold getSSLConfigFromMode
  rw [if_neg h1, if_neg h2, if_neg (by simp_all)]

/-- Witness for C5 at a concrete unrecognized mode. -/
theorem getSSLConfigFromMode_cases_witness :
    getSSLConfigFromMode "tls" =
      Except.error ("SSL mode \"" ++ "tls" ++ "\" not understood.") :=
  getSSLConfigFromMode_cases.2.2.2.2.2.2.2 "tls" (by decide)

/-! ### The PostgresClient and its effect environment -/

/-- Modelled from the spec: the typed error classes
`WarehouseConnectionError` and `WarehouseQueryError` live in
`@lightdash/common`, outside this excerpt; the spec says both wrap the
underlying library's error message, so `message` returns the wrapped
string. `raw` stands for an error thrown by an underlying library. -/
inductive JsError where
  | raw (msg : String)
  | warehouseConnectionError (msg : String)
  | warehouseQueryError (msg : String)
  deriving DecidableEq, Repr

/-- Message carried by an error (the `e.message` accessor). -/
def JsError.message : JsError → String
  | JsError.raw m => m
  | JsError.warehouseConnectionError m => m
  | JsError.warehouseQueryError m => m

/-- Embedding of the `SSHTunnelConfigSecrets` fields used by `connect`. -/
structure SSHTunnelConfigSecrets where
  host : String
  port : Nat
  username : String
  privateKey : String
  deriving DecidableEq, Repr

/-- Embedding of the `SupportedPoolConfig` pick of pg `PoolConfig`. -/
structure SupportedPoolConfig where
  host : String
  port : Nat
  database : String
  user : String
  password : String
  ssl : Option SSLConfig
  deriving DecidableEq, Repr

/-- State of a `PostgresClient` instance: the stored pool config and
optional SSH tunnel secrets. -/
structure PostgresClient where
  config : SupportedPoolConfig
  sshTunnel : Option SSHTunnelConfigSecrets
  deriving Repr

/-- Result of `ssh.addTunnel`: the local port the tunnel listens on. -/
structure TunnelInfo where
  localPort : Nat
  deriving DecidableEq, Repr

/-- Row data returned by pg; passed through untouched by `runQuery`, so
its exact shape is irrelevant and a column-name/value list suffices. -/
abbrev RowData : Type := List (String × String)

/-- Per-column metadata in pg's `results.fields`. -/
structure FieldInfo where
  name : String
  dataTypeID : Nat
  deriving DecidableEq, Repr

/-- Result of `pool.query` in pg: field metadata plus rows. -/
structure QueryResults where
  fields : List FieldInfo
  rows : List RowData
  deriving DecidableEq, Repr

/-- Outcome oracle for the effectful calls into ssh2-promise and pg:
the outcome of establishing the tunnel (`ssh.connect` and
`ssh.addTunnel`), of `new pg.Pool`, and of `pool.query` given the pool's
config and the SQL text. Errors are the underlying libraries' thrown
errors, carrying their message. -/
structure PgEnv where
  tunnelResult : Except String TunnelInfo
  poolResult : Except String Unit
  queryResult : SupportedPoolConfig → String → Except String QueryResults

/-- Pool object as observable here: the config it was created with. -/
structure PgPool where
  config : SupportedPoolConfig
  deriving DecidableEq, Repr

/-- Value stored under each column name in the `fields` record built by
`runQuery` (the object with a single `type` property). -/
structure FieldMeta where
  type : DimensionType
  deriving DecidableEq, Repr

namespace PostgresClient

/-- Try-block of `PostgresClient.connect`: establish the SSH tunnel when
configured (rewriting host/port to the local tunnel end) and create the
pool; underlying errors propagate raw. -/
def connectBody (client : PostgresClient) (env : PgEnv) :
    Except JsError PgPool :=
  match client.sshTunnel with
  | none =>
    match env.poolResult with
    | Except.error m => Except.error (JsError.raw m)
    | Except.ok _ => Except.ok ⟨client.config⟩
  | some _ =>
    match env.tunnelResult with
    | Except.error m => Except.error (JsError.raw m)
    | Except.ok t =>
      match env.poolResult with
      | Except.error m => Except.error (JsError.raw m)
      | Except.ok _ =>
        let cfg : SupportedPoolConfig :=
          { client.config with host := "localhost", port := t.localPort }
        Except.ok ⟨cfg⟩

/-- Embedding of `PostgresClient.connect`: any failure in the try-block
is caught and rethrown as `WarehouseConnectionError` wrapping the
failure's message. -/
def connect (client : PostgresClient) (env : PgEnv) :
    Except JsError PgPool :=
  match connectBody client env with
  | Except.error e =>
      Except.error (JsError.warehouseConnectionError e.message)
  | Except.ok p => Except.ok p

/-- Fields record built by `runQuery`: the reduce over `results.fields`
assigning, for each column, the dimension type of its `dataTypeID` under
its name. -/
def buildFields (fields : List FieldInfo) : JsObj FieldMeta :=
  fields.foldl
    (fun acc f =>
      jsSet acc f.name ⟨convertDataTypeIdToDimensionType f.dataTypeID⟩)
    []

/-- Value returned by `runQuery`: the fields record and the rows. -/
structure RunQueryResult where
  fields : JsObj FieldMeta
  rows : List RowData
  deriving DecidableEq, Repr

/-- Try-block of `PostgresClient.runQuery`: connect (whose typed
connection error, if any, propagates into this block), run the query,
and build the fields record; underlying query errors propagate raw. -/
def runQueryBody (client : PostgresClient) (env : PgEnv) (sql : String) :
    Except JsError RunQueryResult :=
  match connect client env with
  | Except.error e => Except.error e
  | Except.ok pool =>
    match env.queryResult pool.config sql with
    | Except.error m => Except.error (JsError.raw m)
    | Except.ok results =>
      Except.ok { fields := buildFields results.fields,
                  rows := results.rows }

/-- Embedding of `PostgresClient.runQuery`: any failure in the
try-block, including the `WarehouseConnectionError` thrown by `connect`,
is caught and rethrown as `WarehouseQueryError` wrapping its message. -/
def runQuery (client : PostgresClient) (env : PgEnv) (sql : String) :
    Except JsError RunQueryResult :=
  match runQueryBody client env sql with
  | Except.error e => Except.error (JsError.warehouseQueryError e.message)
  | Except.ok r => Except.ok r

/-- Embedding of `PostgresClient.test`: run `SELECT 1` and discard the
result. -/
def test (client : PostgresClient) (env : PgEnv) : Except JsError Unit :=
  match runQuery client env "SELECT 1" with
  | Except.error e => Except.error e
  | Except.ok _ => Except.ok ()

end PostgresClient

namespace PostgresClient

/-- Helper: the fields record built by the reduce in `runQuery` maps each
name to the metadata of the last field with that name (or reads the
initial accumulator when no field has that name). -/
theorem buildFields_foldl_get (l : List FieldInfo) (init : JsObj FieldMeta)
    (name : String) :
    jsGet
      (l.foldl
        (fun acc f =>
          jsSet acc f.name
            ⟨convertDataTypeIdToDimensionType f.dataTypeID⟩)
        init) name =
      ((l.reverse.find? (fun f => f.name = name)).map
        (fun f =>
          (⟨convertDataTypeIdToDimensionType f.dataTypeID⟩ : FieldMeta))).or
        (jsGet init name) := by
  induction l generalizing init with
  | nil => simp
  | cons f fs ih =>
    simp only [List.foldl_cons, List.reverse_cons, List.find?_append]
    rw [ih]
    cases hfind : fs.reverse.find? (fun g => g.name = name) with
    | some g => simp
    | none =>
      by_cases hname : f.name = name
      · subst hname
        simp [List.find?, jsGet_jsSet_same]
      · simp [List.find?, hname,
          jsGet_jsSet_other init f.name name _ (Ne.symm hname)]

/-- Helper: lookup in `buildFields` is the last field with that name. -/
theorem buildFields_get (fields : List FieldInfo) (name : String) :
    jsGet (buildFields fields) name =
      (fields.reverse.find? (fun f => f.name = name)).map
        (fun f =>
          (⟨convertDataTypeIdToDimensionType f.dataTypeID⟩ : FieldMeta)) := by
  rw [buildFields, buildFields_foldl_get]
  simp [jsGet]

/-- Helper: the fields record has no duplicate keys. -/
theorem buildFields_keys_nodup_aux (l : List FieldInfo)
    (init : JsObj FieldMeta) (h : (init.map Prod.fst).Nodup) :
    (((l.foldl
        (fun acc f =>
          jsSet acc f.name
            ⟨convertDataTypeIdToDimensionType f.dataTypeID⟩)
        init)).map Prod.fst).Nodup := by
  induction l generalizing init with
  | nil => simpa using h
  | cons f fs ih => exact ih _ (jsSet_keys_nodup _ _ _ h)

/-- Helper: shape of a successful `runQuery`: the built fields record
plus the untouched rows. -/
theorem runQuery_ok (client : PostgresClient) (env : PgEnv) (sql : String)
    (pool : PgPool) (results : QueryResults)
    (hc : connect client env = Except.ok pool)
    (hq : env.queryResult pool.config sql = Except.ok results) :
    runQuery client env sql =
      Except.ok ⟨buildFields results.fields, results.rows⟩ := by
  unfold runQuery runQueryBody
  rw [hc]
  simp only [hq]

/-- C6 counterexample: with a configured SSH tunnel whose establishment
fails with message "tunnel down", `connect` rethrows it as
`WarehouseConnectionError`, but `runQuery` (the only caller of
`connect`) catches that typed error a second time and surfaces the
failure as `WarehouseQueryError`, not as a connection error. -/
theorem tunnel_failure_double_caught :
    connect
        ⟨⟨"db.internal", 5432, "db", "u", "p", none⟩,
          some ⟨"bastion", 22, "u", "key"⟩⟩
        ⟨Except.error "tunnel down", Except.ok (),
          fun _ _ => Except.ok ⟨[], []⟩⟩ =
      Except.error (JsError.warehouseConnectionError "tunnel down") ∧
    runQuery
        ⟨⟨"db.internal", 5432, "db", "u", "p", none⟩,
          some ⟨"bastion", 22, "u", "key"⟩⟩
        ⟨Except.error "tunnel down", Except.ok (),
          fun _ _ => Except.ok ⟨[], []⟩⟩ "SELECT 1" =
      Except.error (JsError.warehouseQueryError "tunnel down") ∧
    runQuery
        ⟨⟨"db.internal", 5432, "db", "u", "p", none⟩,
          some ⟨"bastion", 22, "u", "key"⟩⟩
        ⟨Except.error "tunnel down", Except.ok (),
          fun _ _ => Except.ok ⟨[], []⟩⟩ "SELECT 1" ≠
      Except.error (JsError.warehouseConnectionError "tunnel down") := by
  refine ⟨rfl, rfl, fun h => ?_⟩
  simp only [runQuery, runQueryBody, connect, connectBody,
    JsError.message] at h
  exact absurd (Except.error.inj h) (by intro h2; cases h2)

/-- C6 amended: `connect` rethrows tunnel/pool failures as
`WarehouseConnectionError` wrapping the underlying message; because
`connect` runs inside `runQuery`'s try-block, such failures are caught a
second time there and surface from `runQuery` as `WarehouseQueryError`
carrying the same message; a failure during query execution is caught
once and rethrown as `WarehouseQueryError`; no retry is attempted (each
library outcome is consulted once and the result is fully determined by
the first outcomes). -/
theorem error_wrapping (client : PostgresClient) (env : PgEnv)
    (sql : String) :
    (∀ m : String, client.sshTunnel.isSome = true →
      env.tunnelResult = Except.error m →
      connect client env =
          Except.error (JsError.warehouseConnectionError m) ∧
      runQuery client env sql =
          Except.error (JsError.warehouseQueryError m)) ∧
    (∀ m : String,
      (client.sshTunnel = none ∨ ∃ t, env.tunnelResult = Except.ok t) →
      env.poolResult = Except.error m →
      connect client env =
          Except.error (JsError.warehouseConnectionError m) ∧
      runQuery client env sql =
          Except.error (JsError.warehouseQueryError m)) ∧
    (∀ (pool : PgPool) (m : String),
      connect client env = Except.ok pool →
      env.queryResult pool.config sql = Except.error m →
      runQuery client env sql =
          Except.error (JsError.warehouseQueryError m)) := by
  refine ⟨?_, ?_, ?_⟩
  · intro m hsome ht
    obtain ⟨s, hs⟩ := Option.isSome_iff_exists.mp hsome
    have hb : connectBody client env = Except.error (JsError.raw m) := by
      unfold connectBody
      rw [hs, ht]
    have hc : connect client env =
        Except.error (JsError.warehouseConnectionError m) := by
      unfold connect
      rw [hb]
      rfl
    refine ⟨hc, ?_⟩
    unfold runQuery runQueryBody
    rw [hc]
    rfl
  · intro m htun hp
    have hb : connectBody client env = Except.error (JsError.raw m) := by
      cases hst : client.sshTunnel with
      | none =>
        unfold connectBody
        rw [hst, hp]
      | some s =>
        rcases htun with hnone | ⟨t, ht⟩
        · rw [hst] at hnone
          cases hnone
        · unfold connectBody
          rw [hst, ht, hp]
    have hc : connect client env =
        Except.error (JsError.warehouseConnectionError m) := by
      unfold connect
      rw [hb]
      rfl
    refine ⟨hc, ?_⟩
    unfold runQuery runQueryBody
    rw [hc]
    rfl
  · intro pool m hc hq
    unfold runQuery runQueryBody
    rw [hc]
    simp only [hq, JsError.message]

/-- Witness for the amended C6 theorem at concrete inputs: a failing
query on a tunnel-less client is wrapped as `WarehouseQueryError`. -/
theorem error_wrapping_witness :
    runQuery ⟨⟨"h", 5432, "db", "u", "p", none⟩, none⟩
        ⟨Except.ok ⟨0⟩, Except.ok (), fun _ _ => Except.error "bad sql"⟩
        "SELECT" =
      Except.error (JsError.warehouseQueryError "bad sql") :=
  (error_wrapping ⟨⟨"h", 5432, "db", "u", "p", none⟩, none⟩
    ⟨Except.ok ⟨0⟩, Except.ok (), fun _ _ => Except.error "bad sql"⟩
    "SELECT").2.2 ⟨⟨"h", 5432, "db", "u", "p", none⟩⟩ "bad sql" rfl rfl

end PostgresClient

namespace PostgresClient

/-- C7: `test` runs exactly the query string "SELECT 1" through
`runQuery`: it returns ok with no other payload iff that query
succeeds, propagates exactly that query's error otherwise, and its
outcome depends on the query oracle only at the SQL text "SELECT 1";
a successful `runQuery` returns the fields record (each column name
mapped to the dimension type of a column with that name's dataTypeID)
together with the row data. -/
theorem test_runQuery_interface :
    (∀ (client : PostgresClient) (env : PgEnv),
      test client env = Except.ok () ↔
        ∃ r, runQuery client env "SELECT 1" = Except.ok r) ∧
    (∀ (client : PostgresClient) (env : PgEnv) (e : JsError),
      test client env = Except.error e ↔
        runQuery client env "SELECT 1" = Except.error e) ∧
    (∀ (client : PostgresClient) (env₁ env₂ : PgEnv),
      env₁.tunnelResult = env₂.tunnelResult →
      env₁.poolResult = env₂.poolResult →
      (∀ cfg : SupportedPoolConfig,
        env₁.queryResult cfg "SELECT 1" = env₂.queryResult cfg "SELECT 1") →
      test client env₁ = test client env₂) ∧
    (∀ (client : PostgresClient) (env : PgEnv) (sql : String)
        (pool : PgPool) (results : QueryResults),
      connect client env = Except.ok pool →
      env.queryResult pool.config sql = Except.ok results →
      runQuery client env sql =
          Except.ok ⟨buildFields results.fields, results.rows⟩ ∧
      ∀ f ∈ results.fields, ∃ g, g ∈ results.fields ∧ g.name = f.name ∧
        jsGet (buildFields results.fields) f.name =
          some ⟨convertDataTypeIdToDimensionType g.dataTypeID⟩) := by
  refine ⟨?_, ?_, ?_, ?_⟩
  · intro client env
    unfold test
    cases hr : runQuery client env "SELECT 1" with
    | error e => simp [hr]
    | ok r => simp
  · intro client env e
    unfold test
    cases hr : runQuery client env "SELECT 1" with
    | error e' => simp
    | ok r => simp
  · intro client env₁ env₂ ht hp hq
    have hcb : connectBody client env₁ = connectBody client env₂ := by
      unfold connectBody
      rw [ht, hp]
    have hc : connect client env₁ = connect client env₂ := by
      unfold connect
      rw [hcb]
    unfold test runQuery runQueryBody
    rw [hc]
    simp only [hq]
  · intro client env sql pool results hc hq
    refine ⟨runQuery_ok client env sql pool results hc hq, ?_⟩
    intro f hf
    cases hfind : results.fields.reverse.find? (fun g => g.name = f.name) with
    | none =>
      exfalso
      have := List.find?_eq_none.mp hfind f (List.mem_reverse.mpr hf)
      simp at this
    | some g =>
      have hg₁ : g ∈ results.fields :=
        List.mem_reverse.mp (List.mem_of_find?_eq_some hfind)
      have hg₂ : g.name = f.name := by
        have := List.find?_some hfind
        simpa using this
      refine ⟨g, hg₁, hg₂, ?_⟩
      rw [buildFields_get, hfind]
      rfl

/-- Witness for C7 at a concrete client, environment, and result set. -/
theorem test_runQuery_interface_witness :
    runQuery ⟨⟨"h", 5432, "db", "u", "p", none⟩, none⟩
        ⟨Except.ok ⟨0⟩, Except.ok (),
          fun _ _ => Except.ok ⟨[⟨"x", 23⟩], [[("x", "1")]]⟩⟩ "SELECT 1" =
      Except.ok ⟨buildFields [⟨"x", 23⟩], [[("x", "1")]]⟩ :=
  (test_runQuery_interface.2.2.2
    ⟨⟨"h", 5432, "db", "u", "p", none⟩, none⟩
    ⟨Except.ok ⟨0⟩, Except.ok (),
      fun _ _ => Except.ok ⟨[⟨"x", 23⟩], [[("x", "1")]]⟩⟩ "SELECT 1"
    ⟨⟨"h", 5432, "db", "u", "p", none⟩⟩
    ⟨[⟨"x", 23⟩], [[("x", "1")]]⟩ rfl rfl).1

/-- C10: in the fields record built by `runQuery`, a name shared by
several result columns gets a single entry whose type comes from the
last such column in field order (lookup is the last field with that
name, and the record's keys are duplicate-free), and the rows array is
returned exactly as produced by the query. -/
theorem runQuery_fields_dedup_last_wins :
    (∀ (fields : List FieldInfo) (name : String),
      jsGet (buildFields fields) name =
        (fields.reverse.find? (fun f => f.name = name)).map
          (fun f =>
            (⟨convertDataTypeIdToDimensionType f.dataTypeID⟩ : FieldMeta))) ∧
    (∀ fields : List FieldInfo,
      ((buildFields fields).map Prod.fst).Nodup) ∧
    (∀ (client : PostgresClient) (env : PgEnv) (sql : String)
        (pool : PgPool) (results : QueryResults),
      connect client env = Except.ok pool →
      env.queryResult pool.config sql = Except.ok results →
      runQuery client env sql =
        Except.ok ⟨buildFields results.fields, results.rows⟩) := by
  refine ⟨buildFields_get, ?_, ?_⟩
  · intro fields
    exact buildFields_keys_nodup_aux fields [] (by simp)
  · intro client env sql pool results hc hq
    exact runQuery_ok client env sql pool results hc hq

/-- Witness for C10: two columns named "x" (an int4 then a bool); the
record keeps a single entry for "x" typed BOOLEAN (the last column),
and the rows come through unchanged. -/
theorem runQuery_fields_dedup_last_wins_witness :
    jsGet (buildFields [⟨"x", 23⟩, ⟨"x", 16⟩]) "x" =
      some ⟨DimensionType.BOOLEAN⟩ ∧
    runQuery ⟨⟨"h", 5432, "db", "u", "p", none⟩, none⟩
        ⟨Except.ok ⟨0⟩, Except.ok (),
          fun _ _ =>
            Except.ok ⟨[⟨"x", 23⟩, ⟨"x", 16⟩], [[("x", "true")]]⟩⟩ "q" =
      Except.ok
        ⟨buildFields [⟨"x", 23⟩, ⟨"x", 16⟩], [[("x", "true")]]⟩ :=
  ⟨by
    rw [runQuery_fields_dedup_last_wins.1 [⟨"x", 23⟩, ⟨"x", 16⟩] "x"]
    rfl,
   runQuery_fields_dedup_last_wins.2.2
    ⟨⟨"h", 5432, "db", "u", "p", none⟩, none⟩
    ⟨Except.ok ⟨0⟩, Except.ok (),
      fun _ _ => Except.ok ⟨[⟨"x", 23⟩, ⟨"x", 16⟩], [[("x", "true")]]⟩⟩
    "q" ⟨⟨"h", 5432, "db", "u", "p", none⟩⟩
    ⟨[⟨"x", 23⟩, ⟨"x", 16⟩], [[("x", "true")]]⟩ rfl rfl⟩

end PostgresClient

/-! ### getCatalog: request sets, query text, and the grouping reduce -/

/-- Requested (database, schema, table) tuple passed to `getCatalog`. -/
structure TableRequest where
  database : String
  schema : String
  table : String
  deriving DecidableEq, Repr

/-- JS `Set.add` on a set represented as its insertion-order element
list: appends the value unless already present. -/
def setAdd (s : List String) (v : String) : List String :=
  if v ∈ s then s else s ++ [v]

/-- Embedding of the reduce in `getCatalog` that builds the three Sets
of quoted database, schema, and table names. -/
def requestSets (requests : List TableRequest) :
    List String × List String × List String :=
  requests.foldl
    (fun acc r =>
      (setAdd acc.1 ("'" ++ r.database ++ "'"),
       setAdd acc.2.1 ("'" ++ r.schema ++ "'"),
       setAdd acc.2.2 ("'" ++ r.table ++ "'")))
    ([], [], [])

/-- SQL text built by `getCatalog`: the template literal with the three
IN-lists interpolated (JS array-in-template interpolation joins the
elements with a comma). -/
def catalogQueryText (databases schemas tables : List String) : String :=
  "\n            SELECT table_catalog,\n" ++
  "                   table_schema,\n" ++
  "                   table_name,\n" ++
  "                   column_name,\n" ++
  "                   data_type\n" ++
  "            FROM information_schema.columns\n" ++
  "            WHERE table_catalog IN (" ++
    String.intercalate "," databases ++ ")\n" ++
  "              AND table_schema IN (" ++
    String.intercalate "," schemas ++ ")\n" ++
  "              AND table_name IN (" ++
    String.intercalate "," tables ++ ")\n        " 

/-- Query phase of `getCatalog`: `none` when the early-return guard
fires (some requested set is empty), otherwise the SQL text to run. -/
def getCatalogQuery (requests : List TableRequest) : Option String :=
  if (requestSets requests).1.length ≤ 0 ∨
      (requestSets requests).2.1.length ≤ 0 ∨
      (requestSets requests).2.2.length ≤ 0 then
    none
  else
    some (catalogQueryText (requestSets requests).1
      (requestSets requests).2.1 (requestSets requests).2.2)

/-- Row of the information_schema.columns result as destructured by the
reduce in `getCatalog`. -/
structure CatalogRow where
  table_catalog : String
  table_schema : String
  table_name : String
  column_name : String
  data_type : String
  deriving DecidableEq, Repr

/-- Nested catalog object built by `getCatalog`:
catalog name, then schema, then table, then column name to type. -/
abbrev Catalog : Type := JsObj (JsObj (JsObj (JsObj DimensionType)))

/-- Truthiness of `requests.find(...)` in the reduce: some request tuple
equals the row's (table_catalog, table_schema, table_name) triple. -/
def rowMatches (requests : List TableRequest) (row : CatalogRow) : Bool :=
  (requests.find? (fun r =>
    r.database == row.table_catalog && r.schema == row.table_schema &&
      r.table == row.table_name)).isSome

/-- Body of the reduce in `getCatalog`: for a matching row, ensure the
three nesting levels exist (defaulting to an empty object) and assign
the mapped type under the column name; a non-matching row leaves the
accumulator unchanged. -/
def catalogStep (requests : List TableRequest) (acc : Catalog)
    (row : CatalogRow) : Catalog :=
  if rowMatches requests row then
    let l1 := (jsGet acc row.table_catalog).getD []
    let l2 := (jsGet l1 row.table_schema).getD []
    let l3 := (jsGet l2 row.table_name).getD []
    jsSet acc row.table_catalog
      (jsSet l1 row.table_schema
        (jsSet l2 row.table_name
          (jsSet l3 row.column_name (mapFieldType row.data_type))))
  else
    acc

/-- Reduce phase of `getCatalog` over the returned rows. -/
def getCatalogRows (requests : List TableRequest)
    (rows : List CatalogRow) : Catalog :=
  rows.foldl (catalogStep requests) []

/-- Embedding of `getCatalog`: early return of the empty object when a
requested set is empty, otherwise run the built query through
`runQuery` (abstracted as an outcome oracle on the SQL text, whose
error would propagate) and reduce the rows. -/
def getCatalog (requests : List TableRequest)
    (runQueryOracle : String → Except JsError (List CatalogRow)) :
    Except JsError Catalog :=
  match getCatalogQuery requests with
  | none => Except.ok []
  | some q =>
    match runQueryOracle q with
    | Except.error e => Except.error e
    | Except.ok rows => Except.ok (getCatalogRows requests rows)

/-- Four-level lookup result[c][s][t][col] in the nested catalog. -/
def jsGet4 (acc : Catalog) (c s t col : String) : Option DimensionType :=
  (jsGet acc c).bind fun l1 =>
    (jsGet l1 s).bind fun l2 =>
      (jsGet l2 t).bind fun l3 => jsGet l3 col

/-- C4: whenever one of the three requested sets is empty (in
particular for the empty requests list), `getCatalog` returns the empty
object without executing any query: the query phase yields no SQL and
the result is the same for every query oracle. -/
theorem getCatalog_empty_sets (requests : List TableRequest)
    (h : (requestSets requests).1 = [] ∨ (requestSets requests).2.1 = [] ∨
      (requestSets requests).2.2 = []) :
    getCatalogQuery requests = none ∧
    ∀ runQueryOracle, getCatalog requests runQueryOracle = Except.ok [] := by
  have hq : getCatalogQuery requests = none := by
    unfold getCatalogQuery
    rcases h with h | h | h <;> simp [h]
  refine ⟨hq, fun runQueryOracle => ?_⟩
  unfold getCatalog
  rw [hq]

/-- Witness for C4 at the empty requests list, with an oracle that
errors if consulted. -/
theorem getCatalog_empty_sets_witness :
    getCatalogQuery [] = none ∧
    getCatalog [] (fun _ => Except.error (JsError.raw "not run")) =
      Except.ok [] :=
  ⟨(getCatalog_empty_sets [] (Or.inl rfl)).1,
   (getCatalog_empty_sets [] (Or.inl rfl)).2 _⟩

/-- Helper: folding `catalogStep` ignores rows that match no request. -/
theorem foldl_catalogStep_filter (requests : List TableRequest)
    (rows : List CatalogRow) (acc : Catalog) :
    (rows.filter (rowMatches requests)).foldl (catalogStep requests) acc =
      rows.foldl (catalogStep requests) acc := by
  induction rows generalizing acc with
  | nil => rfl
  | cons r rs ih =>
    by_cases h : rowMatches requests r = true
    · rw [List.filter_cons_of_pos h]
      simp only [List.foldl_cons]
      exact ih _
    · rw [List.filter_cons_of_neg h]
      simp only [List.foldl_cons]
      rw [show catalogStep requests acc r = acc from by
        unfold catalogStep
        rw [if_neg h]]
      exact ih _

/-- C2: rows whose (table_catalog, table_schema, table_name) triple
equals no requested (database, schema, table) tuple contribute nothing
to the result of `getCatalog`: filtering them out of the query result
leaves the result unchanged, and the reduce step is the identity on
such rows. -/
theorem getCatalog_ignores_unmatched_rows :
    (∀ (requests : List TableRequest)
        (runQueryOracle : String → Except JsError (List CatalogRow)),
      getCatalog requests runQueryOracle =
        getCatalog requests
          (fun q => (runQueryOracle q).map
            (fun rows => rows.filter (rowMatches requests)))) ∧
    (∀ (requests : List TableRequest) (acc : Catalog) (row : CatalogRow),
      (¬ ∃ r ∈ requests, r.database = row.table_catalog ∧
        r.schema = row.table_schema ∧ r.table = row.table_name) →
      catalogStep requests acc row = acc) := by
  constructor
  · intro requests runQueryOracle
    unfold getCatalog
    cases getCatalogQuery requests with
    | none => rfl
    | some q =>
      cases ho : runQueryOracle q with
      | error e => simp [ho, Except.map]
      | ok rows =>
        simp only [ho, Except.map]
        unfold getCatalogRows
        rw [foldl_catalogStep_filter]
  · intro requests acc row hno
    have hfind : requests.find? (fun r =>
        r.database == row.table_catalog && r.schema == row.table_schema &&
          r.table == row.table_name) = none := by
      rw [List.find?_eq_none]
      intro r hr hp
      simp only [Bool.and_eq_true, beq_iff_eq] at hp
      exact hno ⟨r, hr, hp.1.1, hp.1.2, hp.2⟩
    unfold catalogStep
    rw [if_neg (by simp [rowMatches, hfind])]

/-- Witness for C2 at a concrete non-matching row: the step leaves a
concrete accumulator untouched. -/
theorem getCatalog_ignores_unmatched_rows_witness :
    catalogStep [⟨"db", "sch", "tab"⟩] [("db", [])]
        ⟨"db", "sch", "other", "c", "integer"⟩ = [("db", [])] :=
  getCatalog_ignores_unmatched_rows.2 [⟨"db", "sch", "tab"⟩]
    [("db", [])] ⟨"db", "sch", "other", "c", "integer"⟩ (by decide)

/-- Helper: assigning under key `k` a value built by modifying the
current entry (defaulting to the empty object) does not change any
continuation read that is unaffected by the modification; reads of
absent keys yield nothing. -/
theorem bind_jsSet_getD {α β : Type} (o : JsObj (JsObj α)) (k : String)
    (x : JsObj α) (g : JsObj α → Option β)
    (hg : g x = g ((jsGet o k).getD []))
    (hnil : g [] = none) :
    (jsGet (jsSet o k x) k).bind g = (jsGet o k).bind g := by
  rw [jsGet_jsSet_same]
  cases ho : jsGet o k with
  | none => simp [hg, ho, hnil]
  | some l => simp [hg, ho]

/-- C3: a row matching some request is placed in the nested result at
result[table_catalog][table_schema][table_name][column_name] with value
`mapFieldType data_type`, and every other accumulated entry (different
catalog, schema, table, or column path) is preserved. -/
theorem catalogStep_places_matched_row (requests : List TableRequest)
    (acc : Catalog) (row : CatalogRow)
    (h : rowMatches requests row = true) :
    jsGet4 (catalogStep requests acc row) row.table_catalog
        row.table_schema row.table_name row.column_name =
      some (mapFieldType row.data_type) ∧
    ∀ c s t col : String,
      (c, s, t, col) ≠ (row.table_catalog, row.table_schema,
        row.table_name, row.column_name) →
      jsGet4 (catalogStep requests acc row) c s t col =
        jsGet4 acc c s t col := by
  have hstep : catalogStep requests acc row =
      jsSet acc row.table_catalog
        (jsSet ((jsGet acc row.table_catalog).getD [])
          row.table_schema
          (jsSet ((jsGet ((jsGet acc row.table_catalog).getD [])
              row.table_schema).getD [])
            row.table_name
            (jsSet ((jsGet ((jsGet ((jsGet acc
                  row.table_catalog).getD [])
                row.table_schema).getD [])
                row.table_name).getD [])
              row.column_name (mapFieldType row.data_type)))) := by
    unfold catalogStep
    rw [if_pos h]
  constructor
  · rw [hstep]
    simp [jsGet4, jsGet_jsSet_same]
  · intro c s t col hne
    rw [hstep]
    unfold jsGet4
    by_cases hc : c = row.table_catalog
    · rw [hc]
      refine bind_jsSet_getD _ _ _ _ ?_ (by simp [jsGet])
      dsimp only
      by_cases hs : s = row.table_schema
      · rw [hs]
        refine bind_jsSet_getD _ _ _ _ ?_ (by simp [jsGet])
        dsimp only
        by_cases ht : t = row.table_name
        · rw [ht]
          refine bind_jsSet_getD _ _ _ _ ?_ (by simp [jsGet])
          dsimp only
          by_cases hcol : col = row.column_name
          · exact absurd (by rw [hc, hs, ht, hcol]) hne
          · rw [jsGet_jsSet_other _ _ _ _ hcol]
        · rw [jsGet_jsSet_other _ _ _ _ ht]
      · rw [jsGet_jsSet_other _ _ _ _ hs]
    · rw [jsGet_jsSet_other _ _ _ _ hc]

/-- Witness for C3: a matching row lands at its four-level path with
the mapped type, and a previously accumulated entry under another
catalog key is preserved. -/
theorem catalogStep_places_matched_row_witness :
    jsGet4
        (catalogStep [⟨"db", "sch", "tab"⟩]
          [("other", [("s", [("t", [("c", DimensionType.DATE)])])])]
          ⟨"db", "sch", "tab", "c", "integer"⟩)
        "db" "sch" "tab" "c" = some (mapFieldType "integer") ∧
    jsGet4
        (catalogStep [⟨"db", "sch", "tab"⟩]
          [("other", [("s", [("t", [("c", DimensionType.DATE)])])])]
          ⟨"db", "sch", "tab", "c", "integer"⟩)
        "other" "s" "t" "c" =
      jsGet4 [("other", [("s", [("t", [("c", DimensionType.DATE)])])])]
        "other" "s" "t" "c" :=
  ⟨(catalogStep_places_matched_row [⟨"db", "sch", "tab"⟩]
      [("other", [("s", [("t", [("c", DimensionType.DATE)])])])]
      ⟨"db", "sch", "tab", "c", "integer"⟩ (by decide)).1,
   (catalogStep_places_matched_row [⟨"db", "sch", "tab"⟩]
      [("other", [("s", [("t", [("c", DimensionType.DATE)])])])]
      ⟨"db", "sch", "tab", "c", "integer"⟩ (by decide)).2
    "other" "s" "t" "c" (by decide)⟩

/-- First-occurrence deduplication: the canonical form of JS `Set`
insertion order used to characterize the IN-lists in C9. -/
def dedupFirst : List String → List String
  | [] => []
  | x :: xs => x :: (dedupFirst xs).filter (fun y => decide (y ≠ x))

theorem dedupFirst_nodup (l : List String) : (dedupFirst l).Nodup := by
  induction l with
  | nil => simp [dedupFirst]
  | cons x xs ih =>
    simp only [dedupFirst, List.nodup_cons]
    refine ⟨?_, ih.filter _⟩
    intro hmem
    have := List.of_mem_filter hmem
    simp at this

theorem dedupFirst_mem (l : List String) (v : String) :
    v ∈ dedupFirst l ↔ v ∈ l := by
  induction l with
  | nil => simp [dedupFirst]
  | cons x xs ih =>
    simp only [dedupFirst, List.mem_cons]
    constructor
    · rintro (rfl | hm)
      · exact Or.inl rfl
      · exact Or.inr (ih.mp (List.mem_of_mem_filter hm))
    · rintro (rfl | hm)
      · exact Or.inl rfl
      · by_cases hx : v = x
        · exact Or.inl hx
        · refine Or.inr (List.mem_filter.mpr ⟨ih.mpr hm, ?_⟩)
          simp [hx]

/-- Helper: folding JS `Set.add` over a list keeps the accumulator as a
prefix and appends the not-yet-present values in first-occurrence
order. -/
theorem foldl_setAdd_eq (l : List String) : ∀ acc : List String,
    l.foldl setAdd acc =
      acc ++ (dedupFirst l).filter (fun y => decide (y ∉ acc)) := by
  induction l with
  | nil => intro acc; simp [dedupFirst]
  | cons x xs ih =>
    intro acc
    simp only [List.foldl_cons, dedupFirst]
    rw [ih (setAdd acc x)]
    by_cases hx : x ∈ acc
    · have hsa : setAdd acc x = acc := by simp [setAdd, hx]
      rw [hsa, List.filter_cons]
      have hpx : (decide (x ∉ acc)) = false := by simp [hx]
      rw [hpx]
      simp only [Bool.false_eq_true, if_false]
      rw [List.filter_filter]
      congr 1
      apply List.filter_congr
      intro a ha
      by_cases hpa : a ∈ acc
      · simp [hpa]
      · have hax : a ≠ x := fun e => hpa (e ▸ hx)
        simp [hpa, hax]
    · have hsa : setAdd acc x = acc ++ [x] := by simp [setAdd, hx]
      rw [hsa, List.filter_cons]
      have hpx : (decide (x ∉ acc)) = true := by simp [hx]
      rw [hpx]
      simp only [if_true]
      rw [List.filter_filter, List.append_assoc, List.singleton_append]
      congr 2
      apply List.filter_congr
      intro a ha
      by_cases h1 : a = x <;> by_cases h2 : a ∈ acc <;>
        simp [h1, h2, List.mem_append]

/-- Helper: from the empty set, folding `Set.add` is exactly
first-occurrence deduplication. -/
theorem foldl_setAdd_nil (l : List String) :
    l.foldl setAdd [] = dedupFirst l := by
  rw [foldl_setAdd_eq]
  simp

/-- Helper: the three request sets are the first-occurrence dedups of
the quoted database, schema, and table name lists. -/
theorem requestSets_eq (requests : List TableRequest) :
    requestSets requests =
      (dedupFirst (requests.map (fun r => "'" ++ r.database ++ "'")),
       dedupFirst (requests.map (fun r => "'" ++ r.schema ++ "'")),
       dedupFirst (requests.map (fun r => "'" ++ r.table ++ "'"))) := by
  have main : ∀ (reqs : List TableRequest) (a b c : List String),
      reqs.foldl
        (fun acc r =>
          (setAdd acc.1 ("'" ++ r.database ++ "'"),
           setAdd acc.2.1 ("'" ++ r.schema ++ "'"),
           setAdd acc.2.2 ("'" ++ r.table ++ "'"))) (a, b, c) =
      ((reqs.map (fun r => "'" ++ r.database ++ "'")).foldl setAdd a,
       (reqs.map (fun r => "'" ++ r.schema ++ "'")).foldl setAdd b,
       (reqs.map (fun r => "'" ++ r.table ++ "'")).foldl setAdd c) := by
    intro reqs
    induction reqs with
    | nil => intro a b c; rfl
    | cons r rs ih =>
      intro a b c
      simp only [List.foldl_cons, List.map_cons]
      exact ih _ _ _
  unfold requestSets
  rw [main, foldl_setAdd_nil, foldl_setAdd_nil, foldl_setAdd_nil]

/-- C9: for a nonempty requests list the built SQL contains the three
IN-lists, each holding the quoted requested values deduplicated by set
insertion in first-occurrence order; each value is wrapped in single
quotes by plain concatenation (the value appears verbatim, unescaped),
and `dedupFirst` keeps exactly one occurrence of each distinct value. -/
theorem getCatalog_query_quoting (requests : List TableRequest)
    (h : requests ≠ []) :
    getCatalogQuery requests = some (catalogQueryText
        (dedupFirst (requests.map (fun r => "'" ++ r.database ++ "'")))
        (dedupFirst (requests.map (fun r => "'" ++ r.schema ++ "'")))
        (dedupFirst (requests.map (fun r => "'" ++ r.table ++ "'")))) ∧
    (∀ l : List String, (dedupFirst l).Nodup) ∧
    (∀ (l : List String) (v : String), v ∈ dedupFirst l ↔ v ∈ l) := by
  refine ⟨?_, dedupFirst_nodup, dedupFirst_mem⟩
  obtain ⟨r, rest, rfl⟩ : ∃ r rest, requests = r :: rest := by
    cases requests with
    | nil => exact absurd rfl h
    | cons r rest => exact ⟨r, rest, rfl⟩
  unfold getCatalogQuery
  rw [requestSets_eq]
  rw [if_neg (by simp [List.map_cons, dedupFirst])]

/-- Witness for C9 at a concrete requests list with duplicated database
and table values (note the unescaped quote inside a schema name). -/
theorem getCatalog_query_quoting_witness :
    getCatalogQuery [⟨"d", "s", "t"⟩, ⟨"d", "s'2", "t"⟩] =
      some (catalogQueryText
        (dedupFirst ([⟨"d", "s", "t"⟩, ⟨"d", "s'2", "t"⟩].map
          (fun r : TableRequest => "'" ++ r.database ++ "'")))
        (dedupFirst ([⟨"d", "s", "t"⟩, ⟨"d", "s'2", "t"⟩].map
          (fun r : TableRequest => "'" ++ r.schema ++ "'")))
        (dedupFirst ([⟨"d", "s", "t"⟩, ⟨"d", "s'2", "t"⟩].map
          (fun r : TableRequest => "'" ++ r.table ++ "'")))) :=
  (getCatalog_query_quoting [⟨"d", "s", "t"⟩, ⟨"d", "s'2", "t"⟩]
    (by decide)).1

/-! ### PostgresWarehouseClient constructor -/

/-- Unreserved characters of ECMA-262 `encodeURIComponent`: ASCII
letters, digits, and - _ . ! ~ * quote ( ) are copied verbatim. -/
def isUnreservedURIChar (c : Char) : Bool :=
  (65 ≤ c.toNat && c.toNat ≤ 90) || (97 ≤ c.toNat && c.toNat ≤ 122) ||
  (48 ≤ c.toNat && c.toNat ≤ 57) ||
  c ∈ ['-', '_', '.', '!', '~', '*', '\'', '(', ')']

/-- Uppercase hex digit for a value below 16. -/
def hexDigit (n : Nat) : Char :=
  if n < 10 then Char.ofNat (48 + n) else Char.ofNat (55 + n)

/-- Percent-escape of one byte, uppercase hex. -/
def percentByte (b : Nat) : String :=
  String.mk ['%', hexDigit (b / 16), hexDigit (b % 16)]

/-- UTF-8 bytes of a Unicode scalar value. -/
def utf8Bytes (c : Char) : List Nat :=
  let n := c.toNat
  if n < 128 then [n]
  else if n < 2048 then [192 + n / 64, 128 + n % 64]
  else if n < 65536 then
    [224 + n / 4096, 128 + (n / 64) % 64, 128 + n % 64]
  else
    [240 + n / 262144, 128 + (n / 4096) % 64, 128 + (n / 64) % 64,
     128 + n % 64]

/-- The JS builtin `encodeURIComponent`: copies unreserved characters
and percent-encodes the UTF-8 bytes of every other character. -/
def encodeURIComponent (s : String) : String :=
  String.join (s.toList.map (fun c =>
    if isUnreservedURIChar c then String.mk [c]
    else String.join ((utf8Bytes c).map percentByte)))

/-- Modelled from the spec: the `FullPostgresCredentials` record (from
`@lightdash/common`, outside this excerpt) as read by the
`PostgresWarehouseClient` constructor. -/
structure FullPostgresCredentials where
  host : String
  port : Nat
  dbname : String
  user : String
  password : String
  sslmode : Option String
  sshTunnel : Option SSHTunnelConfigSecrets
  deriving Repr

/-- The ssl option computed by the constructor:
`credentials.sslmode ? getSSLConfigFromMode(credentials.sslmode) :
undefined`, with JS truthiness (absent or empty sslmode is falsy) and
the mode function's thrown error propagating. -/
def ctorSslOption (sslmode : Option String) :
    Except String (Option SSLConfig) :=
  match sslmode with
  | none => Except.ok none
  | some m =>
    if m = "" then Except.ok none
    else (getSSLConfigFromMode m).map some

/-- Embedding of the `PostgresWarehouseClient` constructor: builds the
pool config with percent-encoded host, dbname, user, and password,
pass-through port and ssl option, and hands the SSH tunnel secrets to
the base class unchanged. -/
def postgresWarehouseClientInit (credentials : FullPostgresCredentials) :
    Except String PostgresClient :=
  match ctorSslOption credentials.sslmode with
  | Except.error e => Except.error e
  | Except.ok ssl =>
    Except.ok
      ⟨⟨encodeURIComponent credentials.host, credentials.port,
        encodeURIComponent credentials.dbname,
        encodeURIComponent credentials.user,
        encodeURIComponent credentials.password, ssl⟩,
       credentials.sshTunnel⟩

/-- C8: the constructor stores host, database, user, and password
percent-encoded via `encodeURIComponent`; port, the ssl option derived
from sslmode, and the SSH tunnel settings pass through unencoded; an
absent sslmode leaves the ssl option undefined. -/
theorem postgresWarehouseClient_ctor_encoding
    (credentials : FullPostgresCredentials) (client : PostgresClient)
    (h : postgresWarehouseClientInit credentials = Except.ok client) :
    client.config.host = encodeURIComponent credentials.host ∧
    client.config.database = encodeURIComponent credentials.dbname ∧
    client.config.user = encodeURIComponent credentials.user ∧
    client.config.password = encodeURIComponent credentials.password ∧
    client.config.port = credentials.port ∧
    client.sshTunnel = credentials.sshTunnel ∧
    (credentials.sslmode = none → client.config.ssl = none) ∧
    (∀ (m : String) (cfg : SSLConfig), credentials.sslmode = some m →
      m ≠ "" → getSSLConfigFromMode m = Except.ok cfg →
      client.config.ssl = some cfg) := by
  unfold postgresWarehouseClientInit at h
  cases hssl : ctorSslOption credentials.sslmode with
  | error e =>
    rw [hssl] at h
    cases h
  | ok ssl =>
    rw [hssl] at h
    cases h
    refine ⟨rfl, rfl, rfl, rfl, rfl, rfl, ?_, ?_⟩
    · intro hnone
      rw [hnone] at hssl
      unfold ctorSslOption at hssl
      cases hssl
      rfl
    · intro m cfg hm hme hcfg
      rw [hm] at hssl
      simp only [ctorSslOption] at hssl
      rw [if_neg hme, hcfg] at hssl
      simp only [Except.map] at hssl
      cases hssl
      rfl

/-- Witness for C8: a host containing a space is stored percent-encoded
(the space becomes %20). -/
theorem postgresWarehouseClient_ctor_encoding_witness :
    (⟨⟨"a%20b", 1, "d", "u", "p", some (SSLConfig.boolean true)⟩,
        none⟩ : PostgresClient).config.host =
      encodeURIComponent "a b" :=
  (postgresWarehouseClient_ctor_encoding
    ⟨"a b", 1, "d", "u", "p", some "require", none⟩
    ⟨⟨"a%20b", 1, "d", "u", "p", some (SSLConfig.boolean true)⟩, none⟩
    (by rfl)).1
